import Mathlib

/-!
Shallow embedding of the task query/authorization/update contract of the
primetrade task manager backend.

Sources embedded:
* `src/backend/models/Task.js` — the Mongoose task schema: fields
  `title` (String, required, trim, maxlength 100), `description` (String,
  required, trim, maxlength 500), `status` (String, enum
  ["pending", "completed"], default "pending"), `userId` (owner reference,
  required), plus a `createdAt` timestamp.  `save()` applies the trim
  setters on assignment and rejects a document that fails the declared
  validators (empty-after-trim required field, over-length field); the
  controller surfaces such a rejection as a generic server error (HTTP 500).
* `src/backend/controllers/taskController.js` — the four handlers
  `getTasks`, `createTask`, `updateTask`, `deleteTask`.

Modelling choices:
* ObjectIds are `Nat`; timestamps are `Nat`; the collection is a
  `List Task`.  `updatedAt` is not modelled (no claim concerns it).
* A JS falsy check `if (x)` on a request-body string field is `truthy`:
  the field is present and non-empty.
* MongoDB `$regex: search, $options: 'i'` passes the raw user string as
  a regex pattern.  The embedding compiles the fragment the claims need
  (`parseRegex`: literal characters, the `.` wildcard, and escaped
  punctuation) and matches it case-insensitively (`regexMatchCI`); a
  pattern outside that fragment — e.g. the invalid `"("` — fails to
  compile, and the response layer surfaces the driver's rejection as
  HTTP 500 (`searchOk`, `getTasksResponse`).  A metacharacter-free
  pattern compiles to a run of literals, whose matching coincides with
  case-insensitive substring search (`containsCI`, the spec's
  description of search; `regexMatchCI_literal`).
* String trimming and lowercasing are implemented on the character list
  of the string (the kernel evaluates those), covering the ASCII
  whitespace and letters that the test data uses.
* `Task.find(filter)` is `List.filter`; `.sort({createdAt: -1})` is
  `mergeSort` with the "newer first" comparison.
* `findOne` / `findOneAndDelete` take the first document matching the
  query; `save()` of a loaded document writes back by `_id`.
-/

namespace TaskApi

/-- A task document, after the schema setters have been applied. -/
structure Task where
  id : Nat
  title : String
  description : String
  status : String
  userId : Nat
  createdAt : Nat
deriving DecidableEq, Repr

/-- JS truthiness of an optional string body/query field:
`undefined` and `""` are falsy. -/
def truthy : Option String → Bool
  | none => false
  | some s => s != ""

/-- ASCII whitespace recognised by the trim setter. -/
def isSpaceChar (c : Char) : Bool :=
  c == ' ' || c == '\t' || c == '\n' || c == '\r'

/-- The Mongoose `trim: true` setter (JS `String.prototype.trim`):
strip leading and trailing whitespace. -/
def trimStr (s : String) : String :=
  ⟨((s.data.dropWhile isSpaceChar).reverse.dropWhile isSpaceChar).reverse⟩

/-- ASCII lower-casing of a code point, the case map the `i` regex
option applies to the letters involved here. -/
def lowerCode (n : Nat) : Nat :=
  if 65 ≤ n ∧ n ≤ 90 then n + 32 else n

/-- `leadsWith pat hay`: `pat` is an initial run of `hay`. -/
def leadsWith : List Nat → List Nat → Bool
  | [], _ => true
  | _ :: _, [] => false
  | p :: ps, h :: hs => (p == h) && leadsWith ps hs

/-- `occursIn pat hay`: `pat` occurs contiguously somewhere in `hay`. -/
def occursIn (pat : List Nat) : List Nat → Bool
  | [] => leadsWith pat []
  | h :: hs => leadsWith pat (h :: hs) || occursIn pat hs

/-- The lower-cased code points of a string. -/
def lowered (s : String) : List Nat :=
  s.data.map (fun c => lowerCode c.toNat)

/-- Case-insensitive substring occurrence — the spec's description of
search matching, and the behavior of a metacharacter-free `$regex`
pattern (see `regexMatchCI_literal`). -/
def containsCI (hay pat : String) : Bool :=
  occursIn (lowered pat) (lowered hay)

/-- A compiled regex token of the embedded fragment: a literal
(case-folded) code point, or the `.` wildcard. -/
inductive RTok where
  | lit (code : Nat)
  | any
deriving DecidableEq, Repr

/-- The regex metacharacters: a pattern character outside this list
stands for itself. -/
def metaChars : List Char :=
  ['.', '\\', '(', ')', '[', ']', '{', '}', '*', '+', '?', '^', '$', '|']

/-- Compile the user's search string as a regex pattern, covering the
fragment of literal characters, the `.` wildcard, and
backslash-escaped punctuation.  `none` means the pattern is not in the
fragment; for a pattern like `"("` that is an outright regex syntax
error, which the driver rejects (surfaced by the handler as HTTP 500). -/
def parseRegex : List Char → Option (List RTok)
  | [] => some []
  | c :: rest =>
    if c == '.' then (parseRegex rest).map (fun ts => RTok.any :: ts)
    else if c == '\\' then
      match rest with
      | [] => none
      | d :: rest2 =>
        if d.isAlphanum then none
        else (parseRegex rest2).map
          (fun ts => RTok.lit (lowerCode d.toNat) :: ts)
    else if metaChars.contains c then none
    else (parseRegex rest).map (fun ts => RTok.lit (lowerCode c.toNat) :: ts)

/-- The compilation of a metacharacter-free pattern: one literal token
per character. -/
def litToks (cs : List Char) : List RTok :=
  cs.map (fun c => RTok.lit (lowerCode c.toNat))

/-- One token against one (lowered) code point; the wildcard matches
everything except a newline, as a regex `.` does by default. -/
def tokMatches : RTok → Nat → Bool
  | .lit c, code => c == code
  | .any, code => code != 10

/-- Anchored match of a compiled pattern at the head of the text. -/
def matchesAt : List RTok → List Nat → Bool
  | [], _ => true
  | _ :: _, [] => false
  | tk :: pat, c :: cs => tokMatches tk c && matchesAt pat cs

/-- Unanchored regex search, as `$regex` performs: the pattern matches
at some position of the text. -/
def regexFind (pat : List RTok) : List Nat → Bool
  | [] => matchesAt pat []
  | c :: cs => matchesAt pat (c :: cs) || regexFind pat cs

/-- The embedding of `{ field: { $regex: pat, $options: 'i' } }`:
compile the raw pattern and search the lowered text.  The `none` branch
is never consulted by a completed request: `getTasksResponse` answers
500 before filtering when the pattern does not compile, as the driver
throws before matching. -/
def regexMatchCI (hay pat : String) : Bool :=
  match parseRegex pat.data with
  | none => false
  | some toks => regexFind toks (lowered hay)

/-- The pattern is metacharacter-free: every character stands for
itself. -/
def literalPattern (s : String) : Bool :=
  s.data.all (fun c => !metaChars.contains c)

/-- The validators declared by `taskSchema` in `src/backend/models/Task.js`,
checked by Mongoose at `save()`: `title` required (non-empty after trim)
and at most 100 chars, `description` required and at most 500 chars,
`status` in the enum.  (`userId` required holds by construction: every
controller path sets it.) -/
def validTaskDoc (t : Task) : Bool :=
  t.title != "" && decide (t.title.length ≤ 100) &&
  t.description != "" && decide (t.description.length ≤ 500) &&
  (t.status == "pending" || t.status == "completed")

/-- Request body of `POST /api/tasks`.  The controller destructures only
`title` and `description`; `status` and `userId` model extra fields a
client may send. -/
structure CreateBody where
  title : Option String
  description : Option String
  status : Option String
  userId : Option Nat
deriving DecidableEq, Repr

/-- Outcome of `createTask`, carrying the collection afterwards.
`validationError` is HTTP 400, `serverError` is HTTP 500 (schema
validation rejected the document at `save()`), `created` is HTTP 201. -/
inductive CreateResult where
  | validationError (db : List Task)
  | serverError (db : List Task)
  | created (task : Task) (db : List Task)
deriving DecidableEq, Repr

/-- The collection after a create, whatever the outcome. -/
def CreateResult.finalDb : CreateResult → List Task
  | .validationError db => db
  | .serverError db => db
  | .created _ db => db

/-- HTTP status of a create outcome. -/
def CreateResult.httpStatus : CreateResult → Nat
  | .validationError _ => 400
  | .serverError _ => 500
  | .created _ _ => 201

/-- `createTask` (`src/backend/controllers/taskController.js` lines 26–45):
reject with 400 if `!title || !description`; otherwise build the document
(trim setters fire on assignment, `status` defaults to `"pending"`,
`userId` is the authenticated caller) and `save()` it. -/
def createTask (ownerId : Nat) (body : CreateBody) (newId now : Nat)
    (db : List Task) : CreateResult :=
  if !truthy body.title || !truthy body.description then
    .validationError db
  else
    let task : Task :=
      { id := newId
        title := trimStr (body.title.getD "")
        description := trimStr (body.description.getD "")
        status := "pending"
        userId := ownerId
        createdAt := now }
    if validTaskDoc task then .created task (db ++ [task])
    else .serverError db

/-- The filter built by `getTasks` (lines 3–17): always
`userId = caller`; if `search` is truthy, title OR description matches
the raw string as a case-insensitive regex pattern; if `status` is
truthy, equality on the stored status (applied literally, not validated
against the enum). -/
def taskMatches (ownerId : Nat) (search statusq : Option String)
    (t : Task) : Bool :=
  t.userId == ownerId &&
  (if truthy search then
      regexMatchCI t.title (search.getD "") ||
      regexMatchCI t.description (search.getD "")
    else true) &&
  (if truthy statusq then t.status == statusq.getD "" else true)

/-- `getTasks` (lines 3–24): `Task.find(filter).sort({createdAt: -1})`. -/
def getTasks (ownerId : Nat) (search statusq : Option String)
    (db : List Task) : List Task :=
  (db.filter (taskMatches ownerId search statusq)).mergeSort
    (fun a b => b.createdAt ≤ a.createdAt)

/-- Request body of `PUT /api/tasks/:id`. -/
structure UpdateBody where
  title : Option String
  description : Option String
  status : Option String
deriving DecidableEq, Repr

/-- `Task.findOne({ _id: id, userId })` / the query of
`findOneAndDelete`: the first document with the given id owned by the
caller. -/
def findOwnedTask (ownerId taskId : Nat) (db : List Task) : Option Task :=
  db.find? (fun t => t.id == taskId && t.userId == ownerId)

/-- The three conditional assignments of `updateTask` (lines 57–61):
`title` and `description` are assigned only when truthy (the trim setter
fires); `status` only when truthy and in the enum. -/
def applyUpdate (body : UpdateBody) (t : Task) : Task :=
  let t1 := if truthy body.title then
      { t with title := trimStr (body.title.getD "") } else t
  let t2 := if truthy body.description then
      { t1 with description := trimStr (body.description.getD "") } else t1
  if truthy body.status &&
      (body.status.getD "" == "pending" || body.status.getD "" == "completed")
    then { t2 with status := body.status.getD "" } else t2

/-- `save()` of a loaded document: write back by `_id`. -/
def saveTask (t : Task) (db : List Task) : List Task :=
  db.map (fun u => if u.id == t.id then t else u)

/-- Outcome of `updateTask`: `notFound` is HTTP 404, `serverError` is
HTTP 500 (schema validation rejected the modified document), `updated`
is HTTP 200 and carries the returned task. -/
inductive UpdateResult where
  | notFound (db : List Task)
  | serverError (db : List Task)
  | updated (task : Task) (db : List Task)
deriving DecidableEq, Repr

/-- The collection after an update, whatever the outcome. -/
def UpdateResult.finalDb : UpdateResult → List Task
  | .notFound db => db
  | .serverError db => db
  | .updated _ db => db

/-- HTTP status of an update outcome. -/
def UpdateResult.httpStatus : UpdateResult → Nat
  | .notFound _ => 404
  | .serverError _ => 500
  | .updated _ _ => 200

/-- `updateTask` (lines 47–68): look up by `(id, owner)`, 404 when
absent; apply the conditional assignments; `save()`. -/
def updateTask (ownerId taskId : Nat) (body : UpdateBody)
    (db : List Task) : UpdateResult :=
  match findOwnedTask ownerId taskId db with
  | none => .notFound db
  | some t =>
    let t' := applyUpdate body t
    if validTaskDoc t' then .updated t' (saveTask t' db)
    else .serverError db

/-- Outcome of `deleteTask`: `notFound` is HTTP 404, `deleted` HTTP 200. -/
inductive DeleteResult where
  | notFound (db : List Task)
  | deleted (db : List Task)
deriving DecidableEq, Repr

/-- The collection after a delete, whatever the outcome. -/
def DeleteResult.finalDb : DeleteResult → List Task
  | .notFound db => db
  | .deleted db => db

/-- HTTP status of a delete outcome. -/
def DeleteResult.httpStatus : DeleteResult → Nat
  | .notFound _ => 404
  | .deleted _ => 200

/-- `deleteTask` (lines 70–83):
`Task.findOneAndDelete({ _id: id, userId })`, 404 when no owned match. -/
def deleteTask (ownerId taskId : Nat) (db : List Task) : DeleteResult :=
  match findOwnedTask ownerId taskId db with
  | none => .notFound db
  | some _ =>
    .deleted (db.eraseP (fun u => u.id == taskId && u.userId == ownerId))

/-- The document `createTask` builds before saving. -/
def createdDoc (ownerId : Nat) (body : CreateBody) (newId now : Nat) : Task :=
  { id := newId
    title := trimStr (body.title.getD "")
    description := trimStr (body.description.getD "")
    status := "pending"
    userId := ownerId
    createdAt := now }

/-- Database invariant: every stored status is one of the two enum
values (established by `createTask`, preserved by every operation). -/
def StatusInv (db : List Task) : Prop :=
  ∀ t ∈ db, t.status = "pending" ∨ t.status = "completed"

/-- Database invariant supplied by MongoDB: `_id` values are unique. -/
def IdsNodup (db : List Task) : Prop :=
  (db.map Task.id).Nodup

/-! ### Helper lemmas -/

/-- Membership in a `getTasks` result is membership in the filtered
collection. -/
theorem mem_getTasks {o : Nat} {s st : Option String} {db : List Task}
    {t : Task} :
    t ∈ getTasks o s st db ↔ t ∈ db ∧ taskMatches o s st t = true := by
  simp [getTasks, List.mem_filter]

/-- Anchored matching of an all-literal compiled pattern is the
leading-run test on the lowered code points. -/
theorem matchesAt_litToks : ∀ (cs : List Char) (codes : List Nat),
    matchesAt (litToks cs) codes =
      leadsWith (cs.map (fun c => lowerCode c.toNat)) codes
  | [], codes => by cases codes <;> rfl
  | _ :: _, [] => rfl
  | c :: cs, d :: codes => by
    have ih := matchesAt_litToks cs codes
    simp only [litToks] at ih ⊢
    simp [matchesAt, leadsWith, tokMatches, ih]

/-- Searching an all-literal compiled pattern is substring occurrence
of the lowered code points. -/
theorem regexFind_litToks : ∀ (cs : List Char) (codes : List Nat),
    regexFind (litToks cs) codes =
      occursIn (cs.map (fun c => lowerCode c.toNat)) codes
  | cs, [] => by
    simp [regexFind, occursIn, matchesAt_litToks]
  | cs, d :: codes => by
    simp [regexFind, occursIn, matchesAt_litToks,
      regexFind_litToks cs codes]

/-- A metacharacter-free pattern compiles to its run of literal
tokens. -/
theorem parseRegex_literal : ∀ cs : List Char,
    cs.all (fun c => !metaChars.contains c) = true →
    parseRegex cs = some (litToks cs)
  | [], _ => rfl
  | c :: cs, h => by
    simp only [List.all_cons, Bool.and_eq_true, Bool.not_eq_true'] at h
    obtain ⟨hc, hcs⟩ := h
    have hdot : (c == '.') = false := by
      rcases hb : c == '.' with _ | _
      · rfl
      · exfalso
        rw [beq_iff_eq.mp hb] at hc
        exact absurd hc (by decide)
    have hbsl : (c == '\\') = false := by
      rcases hb : c == '\\' with _ | _
      · rfl
      · exfalso
        rw [beq_iff_eq.mp hb] at hc
        exact absurd hc (by decide)
    have hcmem : c ∉ metaChars := by
      simpa [metaChars] using hc
    unfold parseRegex
    simp [hdot, hbsl, hcmem, parseRegex_literal cs hcs, litToks]

/-- On a metacharacter-free pattern the code's regex search coincides
with the spec's case-insensitive substring test. -/
theorem regexMatchCI_literal {s : String}
    (h : literalPattern s = true) :
    ∀ hay : String, regexMatchCI hay s = containsCI hay s := by
  intro hay
  unfold literalPattern at h
  unfold regexMatchCI
  rw [parseRegex_literal s.data h]
  show regexFind (litToks s.data) (lowered hay) = _
  rw [regexFind_litToks]
  rfl

/-- A task found by `findOwnedTask` is in the collection, has the
requested id and is owned by the caller. -/
theorem findOwnedTask_some {o i : Nat} {db : List Task} {t : Task}
    (h : findOwnedTask o i db = some t) :
    t ∈ db ∧ t.id = i ∧ t.userId = o := by
  refine ⟨List.mem_of_find?_eq_some h, ?_⟩
  have hp := List.find?_some h
  simp only [Bool.and_eq_true, beq_iff_eq] at hp
  exact hp

/-- `findOwnedTask` misses exactly when no task with that id is owned by
the caller. -/
theorem findOwnedTask_eq_none {o i : Nat} {db : List Task} :
    findOwnedTask o i db = none ↔ ∀ t ∈ db, t.id = i → t.userId ≠ o := by
  simp [findOwnedTask, List.find?_eq_none]

/-- `applyUpdate` resolves the title by the truthiness of the request
field. -/
theorem applyUpdate_title (b : UpdateBody) (t : Task) :
    (applyUpdate b t).title =
      if truthy b.title then trimStr (b.title.getD "") else t.title := by
  unfold applyUpdate
  split <;> split <;> split <;> rfl

/-- `applyUpdate` resolves the description by the truthiness of the
request field. -/
theorem applyUpdate_description (b : UpdateBody) (t : Task) :
    (applyUpdate b t).description =
      if truthy b.description then trimStr (b.description.getD "")
      else t.description := by
  unfold applyUpdate
  split <;> split <;> split <;> rfl

/-- `applyUpdate` resolves the status by the enum test of the request
field. -/
theorem applyUpdate_status (b : UpdateBody) (t : Task) :
    (applyUpdate b t).status =
      if truthy b.status &&
          (b.status.getD "" == "pending" || b.status.getD "" == "completed")
        then b.status.getD "" else t.status := by
  unfold applyUpdate
  split <;> split <;> split <;> rfl

/-- `applyUpdate` never changes the id. -/
theorem applyUpdate_id (b : UpdateBody) (t : Task) :
    (applyUpdate b t).id = t.id := by
  unfold applyUpdate
  split <;> split <;> split <;> rfl

/-- `applyUpdate` never changes the owner. -/
theorem applyUpdate_userId (b : UpdateBody) (t : Task) :
    (applyUpdate b t).userId = t.userId := by
  unfold applyUpdate
  split <;> split <;> split <;> rfl

/-- `applyUpdate` never changes the creation timestamp. -/
theorem applyUpdate_createdAt (b : UpdateBody) (t : Task) :
    (applyUpdate b t).createdAt = t.createdAt := by
  unfold applyUpdate
  split <;> split <;> split <;> rfl

/-- Mapping a function that fixes the elements a filter keeps and keeps
the rest out of the filter leaves the filtered list unchanged. -/
theorem filter_map_invariant {α : Type} (p : α → Bool) (f : α → α) :
    ∀ l : List α,
      (∀ a ∈ l, (p a = true → f a = a) ∧ (p a = false → p (f a) = false)) →
      (l.map f).filter p = l.filter p
  | [], _ => rfl
  | a :: l, h => by
    have ha := h a (List.mem_cons_self a l)
    have hl :=
      filter_map_invariant p f l (fun x hx => h x (List.mem_cons_of_mem a hx))
    rcases hp : p a with _ | _
    · simp [List.filter_cons, hp, ha.2 hp, hl]
    · simp [List.filter_cons, hp, ha.1 hp, hl]

/-- Erasing an element the filter would drop anyway leaves the filtered
list unchanged. -/
theorem filter_eraseP_invariant {α : Type} (p q : α → Bool)
    (h : ∀ a, q a = true → p a = false) :
    ∀ l : List α, (l.eraseP q).filter p = l.filter p
  | [] => rfl
  | a :: l => by
    rcases hq : q a with _ | _
    · simp [List.eraseP_cons, hq, List.filter_cons,
        filter_eraseP_invariant p q h l]
    · simp [List.eraseP_cons, hq, List.filter_cons, h a hq]

/-- `createTask` on a falsy title rejects with the 400 outcome. -/
theorem createTask_of_title_falsy {o : Nat} {body : CreateBody}
    {newId now : Nat} {db : List Task} (h : truthy body.title = false) :
    createTask o body newId now db = CreateResult.validationError db := by
  unfold createTask
  simp [h]

/-- `createTask` on a falsy description rejects with the 400 outcome. -/
theorem createTask_of_description_falsy {o : Nat} {body : CreateBody}
    {newId now : Nat} {db : List Task}
    (h : truthy body.description = false) :
    createTask o body newId now db = CreateResult.validationError db := by
  unfold createTask
  simp [h]

/-- `createTask` on truthy fields builds the document and saves it,
succeeding exactly when the schema validators accept it. -/
theorem createTask_of_truthy {o : Nat} {body : CreateBody}
    {newId now : Nat} {db : List Task}
    (h1 : truthy body.title = true) (h2 : truthy body.description = true) :
    createTask o body newId now db =
      if validTaskDoc (createdDoc o body newId now) = true then
        CreateResult.created (createdDoc o body newId now)
          (db ++ [createdDoc o body newId now])
      else CreateResult.serverError db := by
  unfold createTask createdDoc
  simp only [h1, h2, Bool.not_true, Bool.or_self, Bool.false_eq_true,
    if_false]

/-- `updateTask` with no owned match is the 404 outcome. -/
theorem updateTask_of_none {o taskId : Nat} {body : UpdateBody}
    {db : List Task} (hf : findOwnedTask o taskId db = none) :
    updateTask o taskId body db = UpdateResult.notFound db := by
  unfold updateTask
  rw [hf]

/-- `updateTask` on a found task applies the conditional assignments and
saves, succeeding exactly when the schema validators accept the result. -/
theorem updateTask_of_some {o taskId : Nat} {body : UpdateBody}
    {db : List Task} {t : Task} (hf : findOwnedTask o taskId db = some t) :
    updateTask o taskId body db =
      if validTaskDoc (applyUpdate body t) = true then
        UpdateResult.updated (applyUpdate body t)
          (saveTask (applyUpdate body t) db)
      else UpdateResult.serverError db := by
  unfold updateTask
  rw [hf]

/-- `deleteTask` with no owned match is the 404 outcome. -/
theorem deleteTask_of_none {o taskId : Nat} {db : List Task}
    (hf : findOwnedTask o taskId db = none) :
    deleteTask o taskId db = DeleteResult.notFound db := by
  unfold deleteTask
  rw [hf]

/-- `deleteTask` on a found task erases it. -/
theorem deleteTask_of_some {o taskId : Nat} {db : List Task} {t : Task}
    (hf : findOwnedTask o taskId db = some t) :
    deleteTask o taskId db =
      DeleteResult.deleted
        (db.eraseP (fun u => u.id == taskId && u.userId == o)) := by
  unfold deleteTask
  rw [hf]

/-! ### Claim theorems -/

/-- C2: Update and Delete fail with NotFound (HTTP 404) exactly when no
task with the supplied id owned by the caller exists — a nonexistent id
and a foreign-owned task give the same outcome — and in that failure
case the collection is returned unchanged (nothing created, modified or
removed). -/
theorem C2_notFound_iff_no_owned_match :
    ∀ (o taskId : Nat) (body : UpdateBody) (db : List Task),
      (updateTask o taskId body db = UpdateResult.notFound db ↔
        ∀ t ∈ db, t.id = taskId → t.userId ≠ o) ∧
      (deleteTask o taskId db = DeleteResult.notFound db ↔
        ∀ t ∈ db, t.id = taskId → t.userId ≠ o) := by
  intro o taskId body db
  constructor
  · cases hf : findOwnedTask o taskId db with
    | none =>
      rw [updateTask_of_none hf]
      simp only [true_iff]
      exact findOwnedTask_eq_none.mp hf
    | some t =>
      obtain ⟨hmem, hid, howner⟩ := findOwnedTask_some hf
      rw [updateTask_of_some hf]
      constructor
      · intro h
        split at h <;> simp at h
      · intro h
        exact absurd howner (h t hmem hid)
  · cases hf : findOwnedTask o taskId db with
    | none =>
      rw [deleteTask_of_none hf]
      simp only [true_iff]
      exact findOwnedTask_eq_none.mp hf
    | some t =>
      obtain ⟨hmem, hid, howner⟩ := findOwnedTask_some hf
      rw [deleteTask_of_some hf]
      constructor
      · intro h
        simp at h
      · intro h
        exact absurd howner (h t hmem hid)

/-- C3 counterexample to the claim as stated: the search value is
passed to the store as a raw regex pattern, not a literal substring —
for the owned task titled "abc", List with search="a.c" returns the
task (the `.` wildcard matches "b"), although "a.c" occurs
case-insensitively as a substring of neither the title nor the
description. -/
theorem C3_search_regex_cex :
    (⟨1, "abc", "d", "pending", 7, 0⟩ : Task) ∈
      getTasks 7 (some "a.c") none [⟨1, "abc", "d", "pending", 7, 0⟩] ∧
    containsCI "abc" "a.c" = false ∧ containsCI "d" "a.c" = false := by
  refine ⟨mem_getTasks.mpr ⟨List.mem_singleton.mpr rfl, by decide⟩,
    by decide, by decide⟩

/-- C3 amended: for a non-empty search string free of regex
metacharacters and a task owned by the caller, List with that search
(and no status filter) returns the task exactly when the search occurs
case-insensitively as a substring of its title or of its description;
a string containing metacharacters is instead interpreted as a regex
pattern. -/
theorem C3_literal_search_iff_substring :
    ∀ (o : Nat) (s : String) (db : List Task) (t : Task),
      s ≠ "" → literalPattern s = true → t ∈ db → t.userId = o →
      (t ∈ getTasks o (some s) none db ↔
        (containsCI t.title s = true ∨ containsCI t.description s = true)) := by
  intro o s db t hs hlit hmem howner
  rw [mem_getTasks]
  have hts : truthy (some s) = true := by
    simp [truthy, hs]
  have hmatch : taskMatches o (some s) none t =
      (containsCI t.title s || containsCI t.description s) := by
    simp [taskMatches, howner, hts, show truthy none = false from rfl,
      regexMatchCI_literal hlit]
  rw [hmatch]
  simp [hmem, Bool.or_eq_true]

/-- C3 witness: a task titled "Buy Milk" is returned for search=milk. -/
theorem C3_literal_search_iff_substring_witness :
    (⟨1, "Buy Milk", "at the store", "pending", 7, 0⟩ : Task) ∈
      getTasks 7 (some "milk") none
        [⟨1, "Buy Milk", "at the store", "pending", 7, 0⟩] :=
  (C3_literal_search_iff_substring 7 "milk" _ _ (by decide) (by decide)
    (List.mem_singleton.mpr rfl) rfl).mpr (Or.inl (by decide))

/-- C5 counterexample to the claim as stated: for the owned task 1 of
user 7, an update carrying the invalid status "wip" together with the
whitespace-only title " " is rejected by schema validation with a server
error (HTTP 500), so an update with an invalid status value does not
always succeed with HTTP 200. -/
theorem C5_invalid_status_cex :
    updateTask 7 1 ⟨some " ", none, some "wip"⟩
        [⟨1, "A", "B", "pending", 7, 0⟩] =
      UpdateResult.serverError [⟨1, "A", "B", "pending", 7, 0⟩] ∧
    (updateTask 7 1 ⟨some " ", none, some "wip"⟩
        [⟨1, "A", "B", "pending", 7, 0⟩]).httpStatus = 500 := by
  decide

/-- C5 amended: a status value that is neither "pending" nor "completed"
is silently ignored — the update behaves exactly as the same request
with the status field omitted (so it succeeds with the other fields
applied whenever that request does), and a successful update leaves the
stored status unchanged. -/
theorem C5_invalid_status_ignored :
    ∀ (o taskId : Nat) (tl ds : Option String) (s : String)
      (db : List Task),
      s ≠ "pending" → s ≠ "completed" →
      updateTask o taskId ⟨tl, ds, some s⟩ db =
        updateTask o taskId ⟨tl, ds, none⟩ db ∧
      ∀ t t' db', findOwnedTask o taskId db = some t →
        updateTask o taskId ⟨tl, ds, some s⟩ db =
          UpdateResult.updated t' db' →
        t'.status = t.status := by
  intro o taskId tl ds s db h1 h2
  have hcond : (truthy (some s) &&
      ((some s).getD "" == "pending" || (some s).getD "" == "completed"))
        = false := by
    simp [h1, h2]
  have happly : ∀ t : Task,
      applyUpdate ⟨tl, ds, some s⟩ t = applyUpdate ⟨tl, ds, none⟩ t := by
    intro t
    unfold applyUpdate
    simp only [hcond]
    rfl
  constructor
  · cases hf : findOwnedTask o taskId db with
    | none => rw [updateTask_of_none hf, updateTask_of_none hf]
    | some t =>
      rw [updateTask_of_some hf, updateTask_of_some hf, happly t]
  · intro t t' db' hf hu
    rw [updateTask_of_some hf] at hu
    split at hu
    · cases hu
      rw [applyUpdate_status]
      simp only [hcond]
      rfl
    · cases hu

/-- C5 witness: an update of the owned task with title "New" and the
invalid status "wip" coincides with the same update with no status
field. -/
theorem C5_invalid_status_ignored_witness :
    updateTask 7 1 ⟨some "New", none, some "wip"⟩
        [⟨1, "A", "B", "pending", 7, 0⟩] =
      updateTask 7 1 ⟨some "New", none, none⟩
        [⟨1, "A", "B", "pending", 7, 0⟩] :=
  (C5_invalid_status_ignored 7 1 (some "New") none "wip"
    [⟨1, "A", "B", "pending", 7, 0⟩] (by decide) (by decide)).1

/-- C4 counterexample to the claim as stated: for the owned task 1 of
user 7, a supplied non-empty title is not stored verbatim — `" B "` is
stored as its trimmed value `"B"` — and the supplied non-empty title
`" "` does not get applied at all: the update fails with a server error
(the trimmed value is empty, failing the required validator). -/
theorem C4_partial_update_cex :
    updateTask 7 1 ⟨some " B ", none, none⟩ [⟨1, "A", "D", "pending", 7, 0⟩] =
      UpdateResult.updated ⟨1, "B", "D", "pending", 7, 0⟩
        [⟨1, "B", "D", "pending", 7, 0⟩] ∧
    " B " ≠ "B" ∧
    updateTask 7 1 ⟨some " ", none, none⟩ [⟨1, "A", "D", "pending", 7, 0⟩] =
      UpdateResult.serverError [⟨1, "A", "D", "pending", 7, 0⟩] := by
  decide

/-- C4 amended: Update has partial-update semantics in which absence and
empty string coincide: on a successful update of an owned task, a title
or description that was omitted or supplied empty keeps its stored
value, a truthy supplied field is stored as its whitespace-trimmed
value, and id, owner and creation time are never changed (the owner
always equals the caller). -/
theorem C4_partial_update_semantics :
    ∀ (o taskId : Nat) (body : UpdateBody) (db : List Task) (t t' : Task)
      (db' : List Task),
      findOwnedTask o taskId db = some t →
      updateTask o taskId body db = UpdateResult.updated t' db' →
      (truthy body.title = false → t'.title = t.title) ∧
      (truthy body.title = true → t'.title = trimStr (body.title.getD "")) ∧
      (truthy body.description = false → t'.description = t.description) ∧
      (truthy body.description = true →
        t'.description = trimStr (body.description.getD "")) ∧
      t'.userId = t.userId ∧ t.userId = o ∧ t'.id = t.id ∧
      t'.createdAt = t.createdAt := by
  intro o taskId body db t t' db' hf hu
  obtain ⟨hmem, hid, howner⟩ := findOwnedTask_some hf
  rw [updateTask_of_some hf] at hu
  split at hu
  · cases hu
    refine ⟨?_, ?_, ?_, ?_, applyUpdate_userId _ _, howner,
      applyUpdate_id _ _, applyUpdate_createdAt _ _⟩
    · intro h
      rw [applyUpdate_title]
      simp [h]
    · intro h
      rw [applyUpdate_title]
      simp [h]
    · intro h
      rw [applyUpdate_description]
      simp [h]
    · intro h
      rw [applyUpdate_description]
      simp [h]
  · cases hu

/-- C4 witness: updating owned task 1 with title "X" and no description
stores the trimmed title and keeps the description. -/
theorem C4_partial_update_semantics_witness :
    (⟨1, "X", "D", "pending", 7, 0⟩ : Task).title = trimStr "X" ∧
    (⟨1, "X", "D", "pending", 7, 0⟩ : Task).description =
      (⟨1, "A", "D", "pending", 7, 0⟩ : Task).description :=
  have h := C4_partial_update_semantics 7 1 ⟨some "X", none, none⟩
    [⟨1, "A", "D", "pending", 7, 0⟩] ⟨1, "A", "D", "pending", 7, 0⟩
    ⟨1, "X", "D", "pending", 7, 0⟩ [⟨1, "X", "D", "pending", 7, 0⟩]
    (by decide) (by decide)
  ⟨h.2.1 rfl, h.2.2.1 rfl⟩

/-- C6 counterexample to the claim as stated: Create(" T ", "D") does
not persist a task whose title equals the input — the stored title is
the trimmed "T" — and Create(" ", "D"), whose title is neither missing
nor empty, does not persist anything: schema validation rejects the
trimmed-empty title and the outcome is a server error, not a created
task and not a 400. -/
theorem C6_create_cex :
    createTask 7 ⟨some " T ", some "D", none, none⟩ 1 0 [] =
      CreateResult.created ⟨1, "T", "D", "pending", 7, 0⟩
        [⟨1, "T", "D", "pending", 7, 0⟩] ∧
    " T " ≠ "T" ∧
    createTask 7 ⟨some " ", some "D", none, none⟩ 1 0 [] =
      CreateResult.serverError [] := by
  decide

/-- C6 amended: Create fails with ValidationError (HTTP 400) iff title
or description is missing or empty; otherwise it saves the document
built from the trimmed inputs with status "pending" and the caller as
owner — succeeding exactly when that document passes the schema
validators (trimmed fields non-empty and within the 100/500 length
limits), and failing with a server error (persisting nothing) when it
does not — and Create(title="T", description="D") on an empty collection
followed by List yields exactly that one task. -/
theorem C6_create_validation_and_roundtrip :
    ∀ (o : Nat) (body : CreateBody) (newId now : Nat) (db : List Task),
      (createTask o body newId now db = CreateResult.validationError db ↔
        truthy body.title = false ∨ truthy body.description = false) ∧
      (truthy body.title = true → truthy body.description = true →
        validTaskDoc (createdDoc o body newId now) = true →
        createTask o body newId now db =
          CreateResult.created (createdDoc o body newId now)
            (db ++ [createdDoc o body newId now])) ∧
      (truthy body.title = true → truthy body.description = true →
        validTaskDoc (createdDoc o body newId now) = false →
        createTask o body newId now db = CreateResult.serverError db) ∧
      (body.title = some "T" → body.description = some "D" →
        getTasks o none none (createTask o body newId now []).finalDb =
          [⟨newId, "T", "D", "pending", o, now⟩]) := by
  intro o body newId now db
  refine ⟨?_, ?_, ?_, ?_⟩
  · cases h1 : truthy body.title with
    | false =>
      rw [createTask_of_title_falsy h1]
      simp
    | true =>
      cases h2 : truthy body.description with
      | false =>
        rw [createTask_of_description_falsy h2]
        simp
      | true =>
        rw [createTask_of_truthy h1 h2]
        constructor
        · intro h
          split at h <;> cases h
        · intro h
          rcases h with h | h <;> cases h
  · intro h1 h2 hv
    rw [createTask_of_truthy h1 h2, if_pos hv]
  · intro h1 h2 hv
    rw [createTask_of_truthy h1 h2, if_neg]
    rw [hv]
    simp
  · intro ht hd
    have h1 : truthy body.title = true := by
      rw [ht]
      rfl
    have h2 : truthy body.description = true := by
      rw [hd]
      rfl
    have hdoc : createdDoc o body newId now =
        ⟨newId, "T", "D", "pending", o, now⟩ := by
      unfold createdDoc
      rw [ht, hd]
      rfl
    have hv : validTaskDoc (createdDoc o body newId now) = true := by
      rw [hdoc]
      rfl
    rw [createTask_of_truthy h1 h2, if_pos hv, hdoc]
    show getTasks o none none [⟨newId, "T", "D", "pending", o, now⟩] = _
    unfold getTasks
    have hfil : List.filter (taskMatches o none none)
        [(⟨newId, "T", "D", "pending", o, now⟩ : Task)] =
        [⟨newId, "T", "D", "pending", o, now⟩] := by
      simp [List.filter_cons, taskMatches, truthy]
    rw [hfil]
    simp

/-- C6 witness: Create("T","D") on an empty collection followed by List
yields exactly that task, pending and owned by the caller. -/
theorem C6_create_validation_and_roundtrip_witness :
    getTasks 7 none none
      (createTask 7 ⟨some "T", some "D", none, none⟩ 1 0 []).finalDb =
      [⟨1, "T", "D", "pending", 7, 0⟩] :=
  (C6_create_validation_and_roundtrip 7 ⟨some "T", some "D", none, none⟩
    1 0 []).2.2.2 rfl rfl

/-- C9: statuses stay inside the two-value enum: a created task starts
"pending", every operation maps a collection satisfying the enum
invariant to one satisfying it, and on any owned task that passes the
schema validators Update can move the status in either direction at any
time — so no status value is terminal. -/
theorem C9_status_enum_invariant :
    ∀ db : List Task, StatusInv db →
      (∀ (o : Nat) (body : CreateBody) (newId now : Nat),
        StatusInv ((createTask o body newId now db).finalDb)) ∧
      (∀ (o : Nat) (body : CreateBody) (newId now : Nat) (task : Task)
          (db' : List Task),
        createTask o body newId now db = CreateResult.created task db' →
        task.status = "pending") ∧
      (∀ (o taskId : Nat) (body : UpdateBody),
        StatusInv ((updateTask o taskId body db).finalDb)) ∧
      (∀ o taskId : Nat, StatusInv ((deleteTask o taskId db).finalDb)) ∧
      (∀ (o : Nat) (s st : Option String), StatusInv (getTasks o s st db)) ∧
      (∀ (o taskId : Nat) (t : Task),
        findOwnedTask o taskId db = some t → validTaskDoc t = true →
        updateTask o taskId ⟨none, none, some "completed"⟩ db =
          UpdateResult.updated { t with status := "completed" }
            (saveTask { t with status := "completed" } db) ∧
        updateTask o taskId ⟨none, none, some "pending"⟩ db =
          UpdateResult.updated { t with status := "pending" }
            (saveTask { t with status := "pending" } db)) := by
  intro db hinv
  refine ⟨?_, ?_, ?_, ?_, ?_, ?_⟩
  · intro o body newId now
    cases h1 : truthy body.title with
    | false =>
      rw [createTask_of_title_falsy h1]
      exact hinv
    | true =>
      cases h2 : truthy body.description with
      | false =>
        rw [createTask_of_description_falsy h2]
        exact hinv
      | true =>
        rw [createTask_of_truthy h1 h2]
        split
        · intro t ht
          rcases List.mem_append.mp ht with h | h
          · exact hinv t h
          · simp only [List.mem_singleton] at h
            subst h
            left
            rfl
        · exact hinv
  · intro o body newId now task db' h
    cases h1 : truthy body.title with
    | false =>
      rw [createTask_of_title_falsy h1] at h
      cases h
    | true =>
      cases h2 : truthy body.description with
      | false =>
        rw [createTask_of_description_falsy h2] at h
        cases h
      | true =>
        rw [createTask_of_truthy h1 h2] at h
        split at h
        · cases h
          rfl
        · cases h
  · intro o taskId body
    cases hf : findOwnedTask o taskId db with
    | none =>
      rw [updateTask_of_none hf]
      exact hinv
    | some t =>
      obtain ⟨hmem, -, -⟩ := findOwnedTask_some hf
      rw [updateTask_of_some hf]
      split
      · intro u hu
        obtain ⟨a, ha, hau⟩ := List.mem_map.mp hu
        subst hau
        by_cases hc : (a.id == (applyUpdate body t).id) = true
        · simp only [hc, if_pos]
          rw [applyUpdate_status]
          split
          · rename_i hcond
            simp only [Bool.and_eq_true, Bool.or_eq_true, beq_iff_eq]
              at hcond
            exact hcond.2
          · exact hinv t hmem
        · simp only [Bool.not_eq_true] at hc
          simp only [hc, Bool.false_eq_true, if_false]
          exact hinv a ha
      · exact hinv
  · intro o taskId
    cases hf : findOwnedTask o taskId db with
    | none =>
      rw [deleteTask_of_none hf]
      exact hinv
    | some t =>
      rw [deleteTask_of_some hf]
      intro u hu
      exact hinv u (List.mem_of_mem_eraseP hu)
  · intro o s st t ht
    exact hinv t (mem_getTasks.mp ht).1
  · intro o taskId t hf hvalid
    constructor
    · have happ : applyUpdate ⟨none, none, some "completed"⟩ t =
          { t with status := "completed" } := rfl
      have hv : validTaskDoc { t with status := "completed" } = true := by
        simp only [validTaskDoc, Bool.and_eq_true] at hvalid ⊢
        exact ⟨hvalid.1, by decide⟩
      rw [updateTask_of_some hf, happ, if_pos hv]
    · have happ : applyUpdate ⟨none, none, some "pending"⟩ t =
          { t with status := "pending" } := rfl
      have hv : validTaskDoc { t with status := "pending" } = true := by
        simp only [validTaskDoc, Bool.and_eq_true] at hvalid ⊢
        exact ⟨hvalid.1, by decide⟩
      rw [updateTask_of_some hf, happ, if_pos hv]

/-- C9 witness: the pending owned task 1 moves to "completed" via
Update. -/
theorem C9_status_enum_invariant_witness :
    updateTask 7 1 ⟨none, none, some "completed"⟩
        [⟨1, "A", "B", "pending", 7, 0⟩] =
      UpdateResult.updated ⟨1, "A", "B", "completed", 7, 0⟩
        (saveTask ⟨1, "A", "B", "completed", 7, 0⟩
          [⟨1, "A", "B", "pending", 7, 0⟩]) :=
  ((C9_status_enum_invariant [⟨1, "A", "B", "pending", 7, 0⟩]
    (by unfold StatusInv; decide)).2.2.2.2.2 7 1
    ⟨1, "A", "B", "pending", 7, 0⟩ (by decide) (by decide)).1

/-- C10: Create reads only title and description from the request body —
two bodies agreeing on those two fields produce identical outcomes, so a
client-supplied status or userId has no effect — and every created task
has status "pending" and the authenticated caller as owner. -/
theorem C10_create_ignores_extra_fields :
    ∀ (o : Nat) (b1 b2 : CreateBody) (newId now : Nat) (db : List Task),
      b1.title = b2.title → b1.description = b2.description →
      createTask o b1 newId now db = createTask o b2 newId now db ∧
      ∀ task db', createTask o b1 newId now db = CreateResult.created task db' →
        task.status = "pending" ∧ task.userId = o := by
  intro o b1 b2 newId now db h1 h2
  constructor
  · unfold createTask
    rw [h1, h2]
  · intro task db' h
    cases h1t : truthy b1.title with
    | false =>
      rw [createTask_of_title_falsy h1t] at h
      cases h
    | true =>
      cases h1d : truthy b1.description with
      | false =>
        rw [createTask_of_description_falsy h1d] at h
        cases h
      | true =>
        rw [createTask_of_truthy h1t h1d] at h
        split at h
        · cases h
          exact ⟨rfl, rfl⟩
        · cases h

/-- C1: owner scoping is built into every query: List returns only tasks
owned by the caller, the task returned by a successful Update is owned
by the caller, and neither Update nor Delete ever mutates or removes a
task owned by someone else (the sublist of foreign-owned tasks is
untouched in every outcome; id uniqueness is the MongoDB `_id`
invariant). -/
theorem C1_owner_scoping :
    ∀ (o : Nat) (db : List Task), IdsNodup db →
      (∀ (search statusq : Option String),
        ∀ t ∈ getTasks o search statusq db, t.userId = o) ∧
      (∀ (taskId : Nat) (body : UpdateBody) (t' : Task) (db' : List Task),
        updateTask o taskId body db = UpdateResult.updated t' db' →
        t'.userId = o) ∧
      (∀ (taskId : Nat) (body : UpdateBody),
        ((updateTask o taskId body db).finalDb).filter
            (fun t => !(t.userId == o)) =
          db.filter (fun t => !(t.userId == o))) ∧
      (∀ taskId : Nat,
        ((deleteTask o taskId db).finalDb).filter
            (fun t => !(t.userId == o)) =
          db.filter (fun t => !(t.userId == o))) := by
  intro o db hnodup
  refine ⟨?_, ?_, ?_, ?_⟩
  · intro search statusq t ht
    obtain ⟨-, hm⟩ := mem_getTasks.mp ht
    simp only [taskMatches, Bool.and_eq_true, beq_iff_eq] at hm
    exact hm.1.1
  · intro taskId body t' db' h
    cases hf : findOwnedTask o taskId db with
    | none =>
      rw [updateTask_of_none hf] at h
      cases h
    | some t =>
      obtain ⟨hmem, hid, howner⟩ := findOwnedTask_some hf
      rw [updateTask_of_some hf] at h
      split at h
      · cases h
        rw [applyUpdate_userId]
        exact howner
      · cases h
  · intro taskId body
    cases hf : findOwnedTask o taskId db with
    | none =>
      rw [updateTask_of_none hf]
      rfl
    | some t =>
      obtain ⟨hmem, hid, howner⟩ := findOwnedTask_some hf
      rw [updateTask_of_some hf]
      split
      · show (saveTask (applyUpdate body t) db).filter _ = _
        unfold saveTask
        apply filter_map_invariant
        intro a ha
        constructor
        · intro hp
          have hane : a.userId ≠ o := by
            intro hao
            simp [hao] at hp
          have haid : (a.id == (applyUpdate body t).id) = false := by
            rw [applyUpdate_id]
            by_cases hcase : a.id = t.id
            · exfalso
              have : a = t :=
                List.inj_on_of_nodup_map hnodup ha hmem hcase
              exact hane (this ▸ howner)
            · simp [hcase]
          simp [haid]
        · intro hp
          by_cases hcase : (a.id == (applyUpdate body t).id) = true
          · simp only [hcase, if_pos]
            rw [applyUpdate_userId, howner]
            simp
          · simp only [Bool.not_eq_true] at hcase
            simp [hcase, hp]
      · rfl
  · intro taskId
    cases hf : findOwnedTask o taskId db with
    | none =>
      rw [deleteTask_of_none hf]
      rfl
    | some t =>
      rw [deleteTask_of_some hf]
      show (db.eraseP _).filter _ = _
      apply filter_eraseP_invariant
      intro a ha
      simp only [Bool.and_eq_true, beq_iff_eq] at ha
      simp [ha.2]

/-- C1 witness: updating task 1 of user 7 in a two-user collection
leaves the foreign-owned sublist untouched. -/
theorem C1_owner_scoping_witness :
    ((updateTask 7 1 ⟨some "New", none, none⟩
        [⟨1, "A", "B", "pending", 7, 0⟩, ⟨2, "C", "D", "pending", 8, 0⟩]).finalDb).filter
        (fun t => !(t.userId == 7)) =
      [⟨1, "A", "B", "pending", 7, 0⟩,
       (⟨2, "C", "D", "pending", 8, 0⟩ : Task)].filter
        (fun t => !(t.userId == 7)) :=
  (C1_owner_scoping 7
    [⟨1, "A", "B", "pending", 7, 0⟩, ⟨2, "C", "D", "pending", 8, 0⟩]
    (by unfold IdsNodup; decide)).2.2.1 1 ⟨some "New", none, none⟩

/-- C8: List does not validate the status filter against the enum: under
the stored-status invariant, a non-empty filter value other than
"pending" or "completed" is applied literally and matches zero tasks,
yielding the empty list. -/
theorem C8_unknown_status_filter_empty :
    ∀ (o : Nat) (search : Option String) (s : String) (db : List Task),
      StatusInv db → s ≠ "" → s ≠ "pending" → s ≠ "completed" →
      getTasks o search (some s) db = [] := by
  intro o search s db hinv hne hp hc
  unfold getTasks
  have hfil : db.filter (taskMatches o search (some s)) = [] := by
    rw [List.filter_eq_nil_iff]
    intro t ht h
    simp only [taskMatches, Bool.and_eq_true] at h
    have hts : truthy (some s) = true := by
      simp [truthy, hne]
    have h3 := h.2
    rw [hts] at h3
    simp only [if_true, beq_iff_eq, Option.getD_some] at h3
    rcases hinv t ht with h1 | h1
    · exact hp (h1 ▸ h3).symm
    · exact hc (h1 ▸ h3).symm
  rw [hfil]
  simp

/-- C8 witness: the filter value "archived" returns the empty list on a
collection holding a pending task of the caller. -/
theorem C8_unknown_status_filter_empty_witness :
    getTasks 7 none (some "archived") [⟨1, "A", "B", "pending", 7, 0⟩] = [] :=
  C8_unknown_status_filter_empty 7 none "archived"
    [⟨1, "A", "B", "pending", 7, 0⟩]
    (by intro t ht; simp at ht; simp [ht])
    (by decide) (by decide) (by decide)

/-- C10 witness: a body carrying status "completed" and a foreign userId
creates the same task as the plain body. -/
theorem C10_create_ignores_extra_fields_witness :
    createTask 7 ⟨some "T", some "D", some "completed", some 99⟩ 1 0 [] =
      createTask 7 ⟨some "T", some "D", none, none⟩ 1 0 [] :=
  (C10_create_ignores_extra_fields 7
    ⟨some "T", some "D", some "completed", some 99⟩
    ⟨some "T", some "D", none, none⟩ 1 0 [] rfl rfl).1

end TaskApi
